import Mathlib

/-!
Verification development for the announcements service
(`src/backend/routers/announcements.py`).

The service is a set of five request handlers over two MongoDB collections
(`announcements` and `teachers`).  We embed the handlers as pure Lean
functions over an explicit store state.  Machine-level aspects modelled
explicitly:

* MongoDB stores a document field that was given the Python value `None`
  as BSON `null`; a `null`-valued field *exists* (so `$exists: false`
  does not match it) and the range operators `$lt/$lte/$gt/$gte` with a
  string operand only match string values (so `{"$lte": today}` does not
  match `null`).  The `start_date` field of a stored document is
  therefore modelled by a three-valued type: missing, null, or a string.
* `datetime.fromisoformat(s).date()` is modelled after the C accelerator
  (`Modules/_datetimemodule.c`) of CPython 3.11, the implementation this
  service runs on: calendar dates in extended (`YYYY-MM-DD`) and basic
  (`YYYYMMDD`) form, ISO week dates (`YYYY-Www[-D]`, `YYYYWww[D]`,
  converted to Gregorian), an optional time-of-day after any single
  separator character (`HH[:?MM[:?SS]]`, an optional `.`/`,` fraction,
  and an optional `Z` or signed `HH[:?MM[:?SS[.ffffff]]]` offset bounded
  below 24 hours), including the accelerator's quirks (a digit after
  `YYYY-Www-` makes the hyphen the datetime separator, a single
  unconsumed character or post-fraction junk before a timezone sign is
  tolerated); the time part is validated and discarded.  The model was
  differentially tested against `datetime.datetime.fromisoformat` on
  several thousand strings, agreeing everywhere.
* `bson.ObjectId(s)` for a string `s` succeeds exactly when `s` is a
  24-character hexadecimal string; `str` of the resulting id is the
  lower-cased hex string.
* `.sort("created_at", -1)` is modelled by `List.insertionSort` with the
  reverse lexicographic order on the `created_at` strings.
* Nondeterministic environment inputs (the generated `ObjectId` of
  `insert_one`, `datetime.utcnow().isoformat()`, `date.today().isoformat()`)
  are passed as explicit parameters.
-/

namespace Announcements

/-- A calendar date, the result of `datetime.fromisoformat(s).date()`. -/
structure Date where
  year : Nat
  month : Nat
  day : Nat
deriving DecidableEq, Repr

/-- Boolean `a ≤ b` on calendar dates (lexicographic on year, month, day),
the order used by Python `date` comparison. -/
def Date.ble (a b : Date) : Bool :=
  if a.year = b.year then
    if a.month = b.month then decide (a.day ≤ b.day)
    else decide (a.month < b.month)
  else decide (a.year < b.year)

/-- Boolean `a < b` on calendar dates. -/
def Date.blt (a b : Date) : Bool :=
  if a.year = b.year then
    if a.month = b.month then decide (a.day < b.day)
    else decide (a.month < b.month)
  else decide (a.year < b.year)

/-- Numeric value of a decimal digit character. -/
def digitVal (c : Char) : Nat := c.toNat - 48

/-- Gregorian leap-year test, as in Python `calendar.isleap`. -/
def isLeap (y : Nat) : Bool :=
  (y % 4 = 0 && y % 100 ≠ 0) || y % 400 = 0

/-- Number of days in a month, as validated by the Python `date` constructor. -/
def daysInMonth (y m : Nat) : Nat :=
  if m = 2 then (if isLeap y then 29 else 28)
  else if m = 4 || m = 6 || m = 9 || m = 11 then 30
  else 31

/-- Parse exactly `n` ASCII digits from the front of a character list,
accumulating their value; mirrors `parse_digits` of
`Modules/_datetimemodule.c` (digit-strict, unlike the pure-Python
fallback's `int()`). -/
def parseDigits (acc : Nat) : Nat → List Char → Option (Nat × List Char)
  | 0, cs => some (acc, cs)
  | _ + 1, [] => none
  | n + 1, c :: cs =>
    if c.isDigit then parseDigits (acc * 10 + digitVal c) n cs else none

/-- Days in the years before year `y` (proleptic Gregorian), as CPython's
`_days_before_year`. -/
def daysBeforeYear (y : Nat) : Nat :=
  365 * (y - 1) + (y - 1) / 4 - (y - 1) / 100 + (y - 1) / 400

/-- Days in the months of year `y` before month `m`. -/
def daysBeforeMonth (y m : Nat) : Nat :=
  (List.range (m - 1)).foldl (fun acc i => acc + daysInMonth y (i + 1)) 0

/-- Proleptic Gregorian ordinal of a date, as CPython's `_ymd2ord`. -/
def ymd2ord (y m d : Nat) : Nat := daysBeforeYear y + daysBeforeMonth y m + d

/-- Ordinal of the Monday starting ISO week 1 of `year`, as CPython's
`_isoweek1monday`. -/
def isoweek1monday (year : Nat) : Nat :=
  let firstDay := ymd2ord year 1 1
  let firstWeekday := (firstDay + 6) % 7
  let week1monday := firstDay - firstWeekday
  if firstWeekday > 3 then week1monday + 7 else week1monday

/-- Walk the months of year `y` to locate a 0-based day-of-year offset;
helper for `ord2ymd` (the fuel starts at 11, enough for 12 months). -/
def monthWalk (y : Nat) : Nat → Nat → Nat → Nat × Nat
  | 0, m, r => (m, r + 1)
  | fuel + 1, m, r =>
    if r < daysInMonth y m then (m, r + 1)
    else monthWalk y fuel (m + 1) (r - daysInMonth y m)

/-- Date of a proleptic Gregorian ordinal, as CPython's `_ord2ymd`. -/
def ord2ymd (n : Nat) : Date :=
  let n0 := n - 1
  let n400 := n0 / 146097
  let r400 := n0 % 146097
  let n100 := r400 / 36524
  let r100 := r400 % 36524
  let n4 := r100 / 1461
  let r4 := r100 % 1461
  let n1 := r4 / 365
  let r1 := r4 % 365
  let year := n400 * 400 + 1 + n100 * 100 + n4 * 4 + n1
  if n1 = 4 || n100 = 4 then ⟨year - 1, 12, 31⟩
  else
    let (m, d) := monthWalk year 11 1 r1
    ⟨year, m, d⟩

/-- ISO week date to Gregorian date, as CPython's `_isoweek_to_gregorian`
(year within `MINYEAR..MAXYEAR`, week 53 only in long years, day 1..7),
followed by the `datetime` constructor's year bound on the result. -/
def isoweekToGregorian (year week day : Nat) : Option Date :=
  if year < 1 || 9999 < year then none
  else
    let weekOk :=
      (0 < week && week < 53) ||
      (week == 53 &&
        (let fw := ymd2ord year 1 1 % 7
         fw == 4 || (fw == 3 && isLeap year)))
    if !weekOk then none
    else if !(0 < day && day < 8) then none
    else
      let d := ord2ymd (isoweek1monday year + (week - 1) * 7 + (day - 1))
      if d.year < 1 || 9999 < d.year then none else some d

/-- Number of leading ASCII digits of a character list. -/
def countLeadingDigits : List Char → Nat
  | [] => 0
  | c :: cs => if c.isDigit then countLeadingDigits cs + 1 else 0

/-- Length of the date portion of an ISO datetime string (the datetime
separator, if any, is the single character that follows); mirrors
`_find_isoformat_datetime_separator`, including the week-date
disambiguation (a digit at index 10 after `YYYY-Www-` makes the hyphen
at index 8 the separator, and for `YYYYWww` runs of digits the parity of
the first non-digit index decides).  `none` models its `ValueError`. -/
def findIsoSeparator (cs : List Char) : Option Nat :=
  let len := cs.length
  if len = 7 then some 7
  else
    if cs.getD 4 ' ' = '-' then
      if cs.getD 5 ' ' = 'W' then
        if len < 8 then none
        else if len > 8 && cs.getD 8 ' ' = '-' then
          if len = 9 then none
          else if len > 10 && (cs.getD 10 ' ').isDigit then some 8
          else some 10
        else some 8
      else some 10
    else
      if cs.getD 4 ' ' = 'W' then
        let idx := 7 + countLeadingDigits (cs.drop 7)
        if idx < 9 then some idx
        else if idx % 2 = 0 then some 7
        else some 8
      else some 8

/-- Consume the dash between date components exactly when the date uses
dashes (`Inconsistent use of dash separator` otherwise). -/
def consumeDash (has_sep : Bool) : List Char → Option (List Char)
  | '-' :: r => if has_sep then some r else none
  | r => if has_sep then none else some r

/-- Parse a date portion after the 4-digit year: calendar month/day or an
ISO week date (week day is a single digit, defaulting to 1); mirrors
`parse_isoformat_date` with the `datetime` constructor's range checks. -/
def parseIsoDateTail (year : Nat) (has_sep : Bool) : List Char → Option Date
  | 'W' :: r2 =>
    match parseDigits 0 2 r2 with
    | none => none
    | some (week, r3) =>
      match r3 with
      | [] => isoweekToGregorian year week 1
      | r4 =>
        match consumeDash has_sep r4 with
        | none => none
        | some r5 =>
          match parseDigits 0 1 r5 with
          | none => none
          | some (day, r6) =>
            match r6 with
            | [] => isoweekToGregorian year week day
            | _ => none
  | r2 =>
    match parseDigits 0 2 r2 with
    | none => none
    | some (month, r3) =>
      match consumeDash has_sep r3 with
      | none => none
      | some r4 =>
        match parseDigits 0 2 r4 with
        | none => none
        | some (day, r5) =>
          match r5 with
          | [] =>
            if 1 ≤ year && 1 ≤ month && month ≤ 12 && 1 ≤ day &&
                day ≤ daysInMonth year month then
              some ⟨year, month, day⟩
            else none
          | _ => none

/-- Parse the date portion of an ISO datetime string. -/
def parseIsoDate (cs : List Char) : Option Date :=
  match parseDigits 0 4 cs with
  | none => none
  | some (year, r1) =>
    match r1 with
    | '-' :: r2 => parseIsoDateTail year true r2
    | r2 => parseIsoDateTail year false r2

/-- Outcome of the component loop of `parse_hh_mm_ss_ff`: parse error,
an in-loop return carrying the leftover flag (the C `rv`), or a fall
through to the fractional-seconds block. -/
inductive LoopOut where
  | lfail
  | lret (leftover : Bool) (comps : List Nat)
  | lfrac (comps : List Nat) (rest : List Char)

/-- The `HH[:?MM[:?SS]]` component loop of `parse_hh_mm_ss_ff`.
`hasMore` says whether the string continues past the region being parsed
(`rv = c != 0` reads the following byte there); the fuel counts the
components still allowed after the current one.  A component ending one
character before the region end returns with the leftover flag set (that
character is read as `c` and then tolerated by the caller when a
timezone follows — a quirk of the C code). -/
def hmsfLoop (hasMore : Bool) : Nat → Option Bool → List Nat → List Char → LoopOut
  | fuel, hsepInit, acc, cs =>
    match parseDigits 0 2 cs with
    | none => .lfail
    | some (v, rest) =>
      let acc2 := acc ++ [v]
      match rest with
      | [] => .lret hasMore acc2
      | c :: rest2 =>
        let hs := match hsepInit with | none => c = ':' | some b => b
        if rest2.isEmpty then .lret true acc2
        else if c = ':' then
          if !hs then .lfail
          else
            match fuel with
            | 0 => .lfrac acc2 rest2
            | fuel2 + 1 => hmsfLoop hasMore fuel2 (some hs) acc2 rest2
        else if c = '.' || c = ',' then .lfrac acc2 rest2
        else if !hs then
          match fuel with
          | 0 => .lfrac acc2 (c :: rest2)
          | fuel2 + 1 => hmsfLoop hasMore fuel2 (some hs) acc2 (c :: rest2)
        else .lfail

/-- The fractional-seconds block of `parse_hh_mm_ss_ff`: up to six
digits (scaled to microseconds), further digits skipped; a non-digit
remainder sets the leftover flag (rejected later unless a timezone
follows). -/
def fracBlock (hasMore : Bool) (cs : List Char) : Option (Nat × Bool) :=
  let to_parse := min 6 cs.length
  match parseDigits 0 to_parse cs with
  | none => none
  | some (v, rest) =>
    let us := v * 10 ^ (6 - to_parse)
    match rest.dropWhile Char.isDigit with
    | [] => some (us, hasMore)
    | _ => some (us, true)

/-- CPython `parse_hh_mm_ss_ff` on a region of the time string: hour,
minute, second, microsecond, and the leftover flag (`rv`). -/
def parseHMSF (hasMore : Bool) (region : List Char) :
    Option (Nat × Nat × Nat × Nat × Bool) :=
  match hmsfLoop hasMore 2 none [] region with
  | .lfail => none
  | .lret leftover comps =>
    some (comps.getD 0 0, comps.getD 1 0, comps.getD 2 0, 0, leftover)
  | .lfrac comps rest =>
    match fracBlock hasMore rest with
    | none => none
    | some (us, leftover) =>
      some (comps.getD 0 0, comps.getD 1 0, comps.getD 2 0, us, leftover)

/-- Index of the first timezone marker (`Z`, `+` or `-`) in the time
string, or its length; the C scan. -/
def findTzIdx : List Char → Nat
  | [] => 0
  | c :: cs => if c = 'Z' || c = '+' || c = '-' then 0 else findTzIdx cs + 1

/-- CPython `parse_isoformat_time` acceptance, followed by the
`datetime`/`timezone` constructors' range checks: time components in
range, `Z` only as the final character, a signed offset parsed by the
same component grammar with no leftover and total magnitude strictly
below 24 hours. -/
def parseIsoTime (tstr : List Char) : Bool :=
  let tzpos := findTzIdx tstr
  let hasTz := tzpos < tstr.length
  let region := tstr.take tzpos
  match parseHMSF hasTz region with
  | none => false
  | some (h, mi, s, _us, leftover) =>
    let rangesOk := h ≤ 23 && mi ≤ 59 && s ≤ 59
    if !hasTz then rangesOk && !leftover
    else
      rangesOk &&
      match tstr.drop tzpos with
      | 'Z' :: rest => rest.isEmpty
      | _c :: tzstr =>
        (match parseHMSF false tzstr with
         | none => false
         | some (th, tm, ts, tus, tleft) =>
           !tleft && ((th * 3600 + tm * 60 + ts) * 1000000 + tus ≤ 86399999999))
      | [] => false

/-- Model of CPython 3.11's `datetime.fromisoformat(s).date()` (the C
accelerator `datetime_fromisoformat`, which is what runs): split at the
datetime separator, parse the date portion (calendar or ISO week date),
then require a valid time portion when one follows; the time and offset
are validated and discarded by `.date()`.  `none` models the
`ValueError` caught by the handlers.  Differentially tested against the
stdlib implementation on several thousand strings. -/
def fromisoformatDate (s : String) : Option Date :=
  let cs := s.data
  if cs.length < 7 then none
  else
    match findIsoSeparator cs with
    | none => none
    | some seploc =>
      match parseIsoDate (cs.take seploc) with
      | none => none
      | some d =>
        if cs.length ≤ seploc then some d
        else if parseIsoTime (cs.drop (seploc + 1)) then some d
        else none

/-- The `start_date` field of a stored BSON document: the field may be
missing, hold `null` (Python `None`), or hold a string. -/
inductive StartField where
  | missing
  | svnull
  | sdate (s : String)
deriving DecidableEq, Repr

/-- A JSON value in a response body (only the shapes this service emits
for the `_id` field are distinguished). -/
inductive JVal where
  | jnull
  | jstr (s : String)
deriving DecidableEq, Repr

/-- Whether a JSON value is a string. -/
def JVal.isStr : JVal → Bool
  | .jstr _ => true
  | _ => false

/-- A MongoDB ObjectId, identified by its 24-character lower-case hex
representation. -/
abbrev OID := String

/-- Whether a character is a hexadecimal digit. -/
def isHexChar (c : Char) : Bool :=
  c.isDigit || ('a' ≤ c && c ≤ 'f') || ('A' ≤ c && c ≤ 'F')

/-- Lower-case a hexadecimal digit character. -/
def hexLower (c : Char) : Char :=
  if c = 'A' then 'a' else if c = 'B' then 'b' else if c = 'C' then 'c'
  else if c = 'D' then 'd' else if c = 'E' then 'e' else if c = 'F' then 'f'
  else c

/-- Model of `bson.ObjectId(s)` on a string argument: succeeds exactly on
24-character hex strings, normalising to the lower-case hex
representation (which `str` later returns); `none` models the exception
caught by the handlers. -/
def objectIdOfString (s : String) : Option OID :=
  if s.length = 24 && s.data.all isHexChar then some ⟨s.data.map hexLower⟩ else none

/-- Lexicographic (byte-wise, as MongoDB compares UTF-8 strings; these
strings are ASCII) less-or-equal on character lists. -/
def charListLe : List Char → List Char → Bool
  | [], _ => true
  | _ :: _, [] => false
  | a :: as, b :: bs =>
    if a.toNat < b.toNat then true
    else if b.toNat < a.toNat then false
    else charListLe as bs

/-- MongoDB string comparison `a <= b`. -/
def strLeB (a b : String) : Bool := charListLe a.data b.data

/-- A stored announcement document. -/
structure AnnDoc where
  oid : OID
  message : String
  start_date : StartField
  expiration_date : String
  created_by : String
  created_at : String
  updated_by : Option String
  updated_at : Option String
deriving DecidableEq, Repr

/-- An announcement as serialized into a 200 response: the stored fields
with `_id` replaced by `str(_id)` (field `idv` here). -/
structure RespDoc where
  idv : JVal
  message : String
  start_date : StartField
  expiration_date : String
  created_by : String
  created_at : String
  updated_by : Option String
  updated_at : Option String
deriving DecidableEq, Repr

/-- Serialization step `announcement["_id"] = str(announcement["_id"])`
performed before returning a document. -/
def respOf (d : AnnDoc) : RespDoc :=
  { idv := JVal.jstr d.oid
    message := d.message
    start_date := d.start_date
    expiration_date := d.expiration_date
    created_by := d.created_by
    created_at := d.created_at
    updated_by := d.updated_by
    updated_at := d.updated_at }

/-- The two collections the service touches: `announcements_collection`
(in natural order) and `teachers_collection` (usernames present). -/
structure DB where
  announcements : List AnnDoc
  teachers : List String
deriving DecidableEq, Repr

/-- An `HTTPException(status_code, detail)`. -/
structure HErr where
  status_code : Nat
  detail : String
deriving DecidableEq, Repr

/-- Status code of a result, if it is an error. -/
def errStatus {α : Type} : Except HErr α → Option Nat
  | .error e => some e.status_code
  | .ok _ => none

/-- Python truthiness of an optional-string parameter (`if not x`):
`None` and the empty string are falsy. -/
def truthyOpt : Option String → Bool
  | none => false
  | some s => !(s = "")

/-- How a create/update stores its `start_date` parameter: `None` becomes
BSON `null`, a string is stored as given. -/
def toStartField : Option String → StartField
  | none => StartField.svnull
  | some s => StartField.sdate s

/-- The date-validation block shared by `create_announcement` and
`update_announcement`: parse `expiration_date`; if `start_date` is truthy
parse it too and reject when the start date exceeds the expiration date;
a `ValueError` from either parse becomes a 400 "Invalid date format". -/
def validate_dates (expiration_date : String) (start_date : Option String) :
    Except HErr Unit :=
  match fromisoformatDate expiration_date with
  | none => Except.error ⟨400, "Invalid date format"⟩
  | some exp_date =>
    if truthyOpt start_date then
      match fromisoformatDate (start_date.getD "") with
      | none => Except.error ⟨400, "Invalid date format"⟩
      | some st_date =>
        if Date.blt exp_date st_date then
          Except.error ⟨400, "Start date must be before expiration date"⟩
        else Except.ok ()
    else Except.ok ()

/-- The MongoDB active filter on the `start_date` field:
`$or` of `{"$exists": false}` (matches only a missing field) and
`{"$lte": today}` (a string-operand range match, which matches only
string values). -/
def startCond (f : StartField) (today : String) : Bool :=
  match f with
  | .missing => true
  | .svnull => false
  | .sdate s => strLeB s today

/-- Ordering used by `.sort("created_at", -1)`: later creation first. -/
def annGE (a b : AnnDoc) : Prop := strLeB b.created_at a.created_at = true

instance : DecidableRel annGE := fun a b =>
  inferInstanceAs (Decidable (strLeB b.created_at a.created_at = true))

/-- Model of `.sort("created_at", -1)` on a cursor. -/
def sortDesc (l : List AnnDoc) : List AnnDoc := List.insertionSort annGE l

/-- Handler `GET /announcements/active`: filter by the active window
(Mongo semantics on `start_date`), sort by creation time descending,
stringify ids.  `today` is `date.today().isoformat()`. -/
def get_active_announcements (db : DB) (today : String) : List RespDoc :=
  (sortDesc (db.announcements.filter
    (fun a => startCond a.start_date today && strLeB today a.expiration_date))).map respOf

/-- Handler `GET /announcements`: authenticate the caller by presence in
the teachers collection, then return all announcements newest first. -/
def get_all_announcements (db : DB) (username : Option String) :
    Except HErr (List RespDoc) :=
  if !truthyOpt username then Except.error ⟨401, "Authentication required"⟩
  else if !(db.teachers.contains (username.getD "")) then
    Except.error ⟨401, "Invalid user"⟩
  else Except.ok ((sortDesc db.announcements).map respOf)

/-- The document dict built by `create_announcement` before `insert_one`,
with the id assigned by the store. -/
def newAnn (message expiration_date username : String)
    (start_date : Option String) (newOid : OID) (nowIso : String) : AnnDoc :=
  { oid := newOid
    message := message
    start_date := toStartField start_date
    expiration_date := expiration_date
    created_by := username
    created_at := nowIso
    updated_by := none
    updated_at := none }

/-- Handler `POST /announcements`: authenticate, validate dates, insert a
new document, return it with its stringified id.  `newOid` is the id
assigned by `insert_one`, `nowIso` is `datetime.utcnow().isoformat()`.
The resulting store is returned alongside the response. -/
def create_announcement (db : DB) (message expiration_date username : String)
    (start_date : Option String) (newOid : OID) (nowIso : String) :
    Except HErr RespDoc × DB :=
  if username = "" then (Except.error ⟨401, "Authentication required"⟩, db)
  else if !(db.teachers.contains username) then
    (Except.error ⟨401, "Invalid user"⟩, db)
  else
    match validate_dates expiration_date start_date with
    | .error e => (Except.error e, db)
    | .ok _ =>
      (Except.ok (respOf (newAnn message expiration_date username start_date newOid nowIso)),
       { db with announcements :=
          db.announcements ++ [newAnn message expiration_date username start_date newOid nowIso] })

/-- The `$set` document of `update_announcement` applied to a stored
document: replaces message, dates, and stamps `updated_by`/`updated_at`;
`created_by`/`created_at` and `_id` are not in the `$set` and stay. -/
def setFields (d : AnnDoc) (message : String) (start_date : Option String)
    (expiration_date username nowIso : String) : AnnDoc :=
  { d with
      message := message
      start_date := toStartField start_date
      expiration_date := expiration_date
      updated_by := some username
      updated_at := some nowIso }

/-- Model of `update_one({"_id": oid}, {"$set": ...})` followed by
`find_one({"_id": oid})`: update the first document whose id matches and
return the new list together with the updated document; `none` when no
document matches (`matched_count == 0`). -/
def updateFirst (oid : OID) (f : AnnDoc → AnnDoc) :
    List AnnDoc → Option (List AnnDoc × AnnDoc)
  | [] => none
  | d :: ds =>
    if d.oid = oid then some (f d :: ds, f d)
    else
      match updateFirst oid f ds with
      | none => none
      | some (ds2, d2) => some (d :: ds2, d2)

/-- Handler `PUT /announcements/{id}`: authenticate, validate dates,
parse the id, `$set` the new fields on the matching document, 404 when
none matches, else return the updated document. -/
def update_announcement (db : DB) (announcement_id message expiration_date username : String)
    (start_date : Option String) (nowIso : String) :
    Except HErr RespDoc × DB :=
  if username = "" then (Except.error ⟨401, "Authentication required"⟩, db)
  else if !(db.teachers.contains username) then
    (Except.error ⟨401, "Invalid user"⟩, db)
  else
    match validate_dates expiration_date start_date with
    | .error e => (Except.error e, db)
    | .ok _ =>
      match objectIdOfString announcement_id with
      | none => (Except.error ⟨400, "Invalid announcement ID"⟩, db)
      | some obj_id =>
        match updateFirst obj_id
            (fun d => setFields d message start_date expiration_date username nowIso)
            db.announcements with
        | none => (Except.error ⟨404, "Announcement not found"⟩, db)
        | some (anns2, updated) =>
          (Except.ok (respOf updated), { db with announcements := anns2 })

/-- Model of `delete_one({"_id": oid})`: remove the first matching
document; `none` when no document matches (`deleted_count == 0`). -/
def removeFirst (oid : OID) : List AnnDoc → Option (List AnnDoc)
  | [] => none
  | d :: ds =>
    if d.oid = oid then some ds
    else (removeFirst oid ds).map (fun ds2 => d :: ds2)

/-- Handler `DELETE /announcements/{id}`: authenticate, parse the id,
delete the matching document, 404 when none matches, else return the
confirmation message. -/
def delete_announcement (db : DB) (announcement_id username : String) :
    Except HErr String × DB :=
  if username = "" then (Except.error ⟨401, "Authentication required"⟩, db)
  else if !(db.teachers.contains username) then
    (Except.error ⟨401, "Invalid user"⟩, db)
  else
    match objectIdOfString announcement_id with
    | none => (Except.error ⟨400, "Invalid announcement ID"⟩, db)
    | some obj_id =>
      match removeFirst obj_id db.announcements with
      | none => (Except.error ⟨404, "Announcement not found"⟩, db)
      | some anns2 =>
        (Except.ok "Announcement deleted successfully",
         { db with announcements := anns2 })

/-! ### Claim-side definitions -/

/-- Follows the spec's words (section 8): an announcement is active when
today lies in `[start_date or -infinity, expiration_date]`, the stored
date strings being read as calendar dates; an absent start date (missing
field or null) places no lower bound. -/
def spec_active (d : AnnDoc) (today : Date) : Bool :=
  (match d.start_date with
   | .missing => true
   | .svnull => true
   | .sdate s =>
     match fromisoformatDate s with
     | some ds => Date.ble ds today
     | none => false)
  && (match fromisoformatDate d.expiration_date with
      | some de => Date.ble today de
      | none => false)

/-- The stored-record invariant of the spec (section 3): if a start date
is present (a non-empty string), it parses and its calendar date is at
most the calendar date of the expiration string. -/
def startInvB (d : AnnDoc) : Bool :=
  match d.start_date with
  | .sdate s =>
    if s = "" then true
    else
      match fromisoformatDate s, fromisoformatDate d.expiration_date with
      | some ds, some de => Date.ble ds de
      | _, _ => false
  | _ => true

/-- Whether every response document carries a string id. -/
def allIdStr (l : List RespDoc) : Bool := l.all (fun r => r.idv.isStr)

/-- Whether no document of the list has the given id. -/
def noMatch (oid : OID) (l : List AnnDoc) : Bool :=
  l.all (fun d => !(decide (d.oid = oid)))

/-- Whether every document of `new` is either a document of `old` or
satisfies the start/expiration invariant. -/
def allOldOrInv (old new : List AnnDoc) : Bool :=
  new.all (fun d => decide (d ∈ old) || startInvB d)

/-- Frame condition of an update: `new` is `old` with exactly the first
document carrying the given id replaced by the `$set` result, which keeps
its `created_by` and `created_at`; every other document is unchanged. -/
def frameAfterUpdate (message : String) (start_date : Option String)
    (expiration_date username nowIso : String) (oid : OID) :
    List AnnDoc → List AnnDoc → Bool
  | [], [] => false
  | d :: ds, d2 :: ds2 =>
    if d.oid = oid then
      decide (d2 = setFields d message start_date expiration_date username nowIso) &&
      decide (d2.created_by = d.created_by) &&
      decide (d2.created_at = d.created_at) &&
      decide (ds2 = ds)
    else decide (d2 = d) && frameAfterUpdate message start_date expiration_date username nowIso oid ds ds2
  | _, _ => false

/-- Descending creation-time order on response documents. -/
def respGE (a b : RespDoc) : Prop := strLeB b.created_at a.created_at = true

instance : DecidableRel respGE := fun a b =>
  inferInstanceAs (Decidable (strLeB b.created_at a.created_at = true))

/-! ### Sample data used by witnesses -/

/-- A well-formed ObjectId hex string. -/
def oidA : OID := "507f1f77bcf86cd799439011"

/-- A second well-formed ObjectId hex string. -/
def oidB : OID := "507f191e810c19729de860ea"

/-- A sample stored announcement. -/
def docA : AnnDoc :=
  ⟨oidA, "Exam Friday", StartField.sdate "2024-05-01", "2024-06-01",
   "jdoe", "2024-05-01T00:00:00", none, none⟩

/-- A store with one known teacher and no announcements. -/
def dbJ : DB := ⟨[], ["jdoe"]⟩

/-- A store with one known teacher and one announcement. -/
def dbA : DB := ⟨[docA], ["jdoe"]⟩

/-- The stored document produced by a create with `start_date` omitted:
the field holds BSON null. -/
def docNull : AnnDoc :=
  ⟨oidA, "Exam Friday", StartField.svnull, "9999-12-31",
   "jdoe", "2024-05-01T00:00:00", none, none⟩

/-! ### Helper lemmas -/

theorem charListLe_total (a b : List Char) :
    charListLe a b = true ∨ charListLe b a = true := by
  induction a generalizing b with
  | nil => left; rfl
  | cons x xs ih =>
    cases b with
    | nil => right; rfl
    | cons y ys =>
      rcases Nat.lt_trichotomy x.toNat y.toNat with h | h | h
      · left; simp [charListLe, h]
      · rcases ih ys with h2 | h2
        · left; simp [charListLe, h, h2]
        · right; simp [charListLe, h.symm, h2]
      · right; simp [charListLe, h]

theorem charListLe_trans (a b c : List Char)
    (h1 : charListLe a b = true) (h2 : charListLe b c = true) :
    charListLe a c = true := by
  induction a generalizing b c with
  | nil => rfl
  | cons x xs ih =>
    cases b with
    | nil => simp [charListLe] at h1
    | cons y ys =>
      cases c with
      | nil => simp [charListLe] at h2
      | cons z zs =>
        simp only [charListLe] at h1 h2 ⊢
        by_cases hxy : x.toNat < y.toNat
        · by_cases hyz : y.toNat < z.toNat
          · simp [Nat.lt_trans hxy hyz]
          · simp only [if_pos hxy] at h1
            simp only [if_neg hyz] at h2
            by_cases hzy : z.toNat < y.toNat
            · simp [if_pos, hzy] at h2
            · have hxz : x.toNat < z.toNat := by omega
              simp [hxz]
        · simp only [if_neg hxy] at h1
          by_cases hyx : y.toNat < x.toNat
          · simp [hyx] at h1
          · simp only [if_neg hyx] at h1
            by_cases hyz : y.toNat < z.toNat
            · have hxz : x.toNat < z.toNat := by omega
              simp [hxz]
            · simp only [if_neg hyz] at h2
              by_cases hzy : z.toNat < y.toNat
              · simp [hzy] at h2
              · simp only [if_neg hzy] at h2
                have hxz : ¬ x.toNat < z.toNat := by omega
                have hzx : ¬ z.toNat < x.toNat := by omega
                simp [hxz, hzx, ih ys zs h1 h2]

theorem sortDesc_sorted (l : List AnnDoc) : List.Pairwise annGE (sortDesc l) := by
  haveI : IsTotal AnnDoc annGE :=
    ⟨fun a b => charListLe_total b.created_at.data a.created_at.data⟩
  haveI : IsTrans AnnDoc annGE :=
    ⟨fun _ _ _ h1 h2 => charListLe_trans _ _ _ h2 h1⟩
  exact List.sorted_insertionSort annGE l

theorem pairwise_respGE_map (l : List AnnDoc) (h : List.Pairwise annGE l) :
    List.Pairwise respGE (l.map respOf) := by
  rw [List.pairwise_map]
  exact h.imp (fun hab => hab)

theorem allIdStr_map (l : List AnnDoc) : allIdStr (l.map respOf) = true := by
  simp [allIdStr, List.all_map, Function.comp, respOf, JVal.isStr, List.all_eq_true]

theorem Date.ble_of_blt_eq_false (a b : Date) (h : Date.blt a b = false) :
    Date.ble b a = true := by
  rcases a with ⟨y1, m1, d1⟩
  rcases b with ⟨y2, m2, d2⟩
  simp only [Date.blt, Date.ble] at h ⊢
  by_cases h1 : y1 = y2
  · by_cases h2 : m1 = m2
    · simp [h1, h2] at h ⊢
      omega
    · simp [h1, h2, Ne.symm h2] at h ⊢
      omega
  · simp [h1, Ne.symm h1] at h ⊢
    omega

theorem updateFirst_eq_none (oid : OID) (f : AnnDoc → AnnDoc) (l : List AnnDoc)
    (h : noMatch oid l = true) : updateFirst oid f l = none := by
  induction l with
  | nil => rfl
  | cons d ds ih =>
    simp only [noMatch, List.all_cons, Bool.and_eq_true, Bool.not_eq_true',
      decide_eq_false_iff_not] at h
    simp [updateFirst, h.1, ih (by simpa [noMatch] using h.2)]

theorem removeFirst_eq_none (oid : OID) (l : List AnnDoc)
    (h : noMatch oid l = true) : removeFirst oid l = none := by
  induction l with
  | nil => rfl
  | cons d ds ih =>
    simp only [noMatch, List.all_cons, Bool.and_eq_true, Bool.not_eq_true',
      decide_eq_false_iff_not] at h
    simp [removeFirst, h.1, ih (by simpa [noMatch] using h.2)]

theorem removeFirst_noMatch_of_nodup (oid : OID) (l l2 : List AnnDoc)
    (hrm : removeFirst oid l = some l2)
    (hnd : (l.map AnnDoc.oid).Nodup) : noMatch oid l2 = true := by
  induction l generalizing l2 with
  | nil => simp [removeFirst] at hrm
  | cons d ds ih =>
    simp only [List.map_cons, List.nodup_cons] at hnd
    by_cases hd : d.oid = oid
    · simp only [removeFirst, if_pos hd] at hrm
      cases hrm
      simp only [noMatch, List.all_eq_true, Bool.not_eq_true', decide_eq_false_iff_not]
      intro x hx hxo
      exact hnd.1 (hd ▸ hxo ▸ List.mem_map_of_mem AnnDoc.oid hx)
    · simp only [removeFirst, if_neg hd, Option.map_eq_some'] at hrm
      obtain ⟨a, ha, hl2⟩ := hrm
      subst hl2
      have hrec := ih a ha hnd.2
      simp only [noMatch, List.all_cons, Bool.and_eq_true, Bool.not_eq_true',
        decide_eq_false_iff_not]
      exact ⟨hd, by simpa [noMatch] using hrec⟩

theorem frame_of_updateFirst (message : String) (start_date : Option String)
    (expiration_date username nowIso : String) (oid : OID)
    (l l2 : List AnnDoc) (d2 : AnnDoc)
    (h : updateFirst oid
      (fun d => setFields d message start_date expiration_date username nowIso) l
      = some (l2, d2)) :
    frameAfterUpdate message start_date expiration_date username nowIso oid l l2 = true := by
  induction l generalizing l2 d2 with
  | nil => simp [updateFirst] at h
  | cons d ds ih =>
    by_cases hd : d.oid = oid
    · simp only [updateFirst, if_pos hd] at h
      cases h
      simp [frameAfterUpdate, hd, setFields]
    · simp only [updateFirst, if_neg hd] at h
      cases hrec : updateFirst oid
          (fun d => setFields d message start_date expiration_date username nowIso) ds with
      | none => rw [hrec] at h; cases h
      | some p =>
        rw [hrec] at h
        cases h
        simp [frameAfterUpdate, hd, ih p.1 p.2 hrec]

theorem create_ok_inv (db : DB) (msg e u : String) (st : Option String)
    (oid : OID) (now : String) (r : RespDoc) (db2 : DB)
    (h : create_announcement db msg e u st oid now = (Except.ok r, db2)) :
    ¬ u = "" ∧ u ∈ db.teachers ∧
    validate_dates e st = Except.ok () ∧
    r = respOf (newAnn msg e u st oid now) ∧
    db2 = ⟨db.announcements ++ [newAnn msg e u st oid now], db.teachers⟩ := by
  by_cases hu : u = ""
  · simp [create_announcement, hu] at h
  · by_cases hk : u ∈ db.teachers
    · cases hv : validate_dates e st with
      | error err => simp [create_announcement, hu, hk, hv] at h
      | ok uu =>
        cases uu
        simp [create_announcement, hu, hk, hv] at h
        exact ⟨hu, hk, rfl, h.1.symm, h.2.symm⟩
    · simp [create_announcement, hu, hk] at h

theorem update_ok_inv (db : DB) (id msg e u : String) (st : Option String)
    (now : String) (r : RespDoc) (db2 : DB)
    (h : update_announcement db id msg e u st now = (Except.ok r, db2)) :
    ∃ oid anns2 d2,
      ¬ u = "" ∧ u ∈ db.teachers ∧
      validate_dates e st = Except.ok () ∧
      objectIdOfString id = some oid ∧
      updateFirst oid (fun d => setFields d msg st e u now) db.announcements
        = some (anns2, d2) ∧
      r = respOf d2 ∧ db2 = ⟨anns2, db.teachers⟩ := by
  by_cases hu : u = ""
  · simp [update_announcement, hu] at h
  · by_cases hk : u ∈ db.teachers
    · cases hv : validate_dates e st with
      | error err => simp [update_announcement, hu, hk, hv] at h
      | ok uu =>
        cases uu
        cases ho : objectIdOfString id with
        | none => simp [update_announcement, hu, hk, hv, ho] at h
        | some oid =>
          cases hup : updateFirst oid (fun d => setFields d msg st e u now)
              db.announcements with
          | none => simp [update_announcement, hu, hk, hv, ho, hup] at h
          | some p =>
            obtain ⟨anns2, d2⟩ := p
            simp [update_announcement, hu, hk, hv, ho, hup] at h
            exact ⟨oid, anns2, d2, hu, hk, rfl, rfl, hup, h.1.symm, h.2.symm⟩
    · simp [update_announcement, hu, hk] at h

theorem delete_ok_inv (db : DB) (id u m : String) (db2 : DB)
    (h : delete_announcement db id u = (Except.ok m, db2)) :
    ∃ oid anns2,
      ¬ u = "" ∧ u ∈ db.teachers ∧
      objectIdOfString id = some oid ∧
      removeFirst oid db.announcements = some anns2 ∧
      db2 = ⟨anns2, db.teachers⟩ := by
  by_cases hu : u = ""
  · simp [delete_announcement, hu] at h
  · by_cases hk : u ∈ db.teachers
    · cases ho : objectIdOfString id with
      | none => simp [delete_announcement, hu, hk, ho] at h
      | some oid =>
        cases hrm : removeFirst oid db.announcements with
        | none => simp [delete_announcement, hu, hk, ho, hrm] at h
        | some anns2 =>
          simp [delete_announcement, hu, hk, ho, hrm] at h
          exact ⟨oid, anns2, hu, hk, rfl, hrm, h.2.symm⟩
    · simp [delete_announcement, hu, hk] at h

theorem startInvB_of_validate (e : String) (st : Option String)
    (hv : validate_dates e st = Except.ok ()) (d : AnnDoc)
    (hsd : d.start_date = toStartField st) (hed : d.expiration_date = e) :
    startInvB d = true := by
  unfold validate_dates at hv
  cases h1 : fromisoformatDate e with
  | none => rw [h1] at hv; cases hv
  | some de =>
    rw [h1] at hv
    cases st with
    | none => simp [startInvB, hsd, toStartField]
    | some s =>
      by_cases hs : s = ""
      · simp [startInvB, hsd, toStartField, hs]
      · have ht : truthyOpt (some s) = true := by simp [truthyOpt, hs]
        simp only [ht, if_true, Option.getD] at hv
        cases h2 : fromisoformatDate s with
        | none => rw [h2] at hv; cases hv
        | some ds =>
          rw [h2] at hv
          cases h3 : Date.blt de ds with
          | true => simp [h3] at hv
          | false =>
            have hble := Date.ble_of_blt_eq_false de ds h3
            simp [startInvB, hsd, toStartField, hs, h2, hed, h1, hble]

theorem allOldOrInv_append (old : List AnnDoc) (a : AnnDoc)
    (ha : startInvB a = true) : allOldOrInv old (old ++ [a]) = true := by
  simp only [allOldOrInv, List.all_eq_true, List.mem_append, List.mem_singleton]
  intro d hd
  rcases hd with h | h
  · simp [h]
  · simp [h, ha]

theorem allOldOrInv_weaken (old old2 new : List AnnDoc)
    (hsub : ∀ x ∈ old, x ∈ old2)
    (h : allOldOrInv old new = true) : allOldOrInv old2 new = true := by
  simp only [allOldOrInv, List.all_eq_true, Bool.or_eq_true, decide_eq_true_eq] at h ⊢
  intro d hd
  rcases h d hd with h1 | h1
  · exact Or.inl (hsub d h1)
  · exact Or.inr h1

theorem allOldOrInv_of_updateFirst (f : AnnDoc → AnnDoc) (oid : OID)
    (old anns2 : List AnnDoc) (d2 : AnnDoc)
    (h : updateFirst oid f old = some (anns2, d2))
    (hf : ∀ d, startInvB (f d) = true) :
    allOldOrInv old anns2 = true := by
  induction old generalizing anns2 d2 with
  | nil => simp [updateFirst] at h
  | cons d ds ih =>
    by_cases hd : d.oid = oid
    · simp only [updateFirst, if_pos hd] at h
      cases h
      simp only [allOldOrInv, List.all_cons, Bool.and_eq_true, Bool.or_eq_true,
        decide_eq_true_eq, List.all_eq_true]
      constructor
      · exact Or.inr (hf d)
      · intro x hx
        exact Or.inl (List.mem_cons_of_mem d hx)
    · simp only [updateFirst, if_neg hd] at h
      cases hrec : updateFirst oid f ds with
      | none => rw [hrec] at h; cases h
      | some p =>
        rw [hrec] at h
        cases h
        have hds := ih p.1 p.2 (by rw [hrec])
        have hds2 := allOldOrInv_weaken ds (d :: ds) p.1
          (fun x hx => List.mem_cons_of_mem d hx) hds
        simp only [allOldOrInv, List.all_cons, Bool.and_eq_true, Bool.or_eq_true,
          decide_eq_true_eq] at hds2 ⊢
        exact ⟨Or.inl (List.mem_cons_self d ds), hds2⟩

/-! ### Claim theorems -/

/-- C1: the spec states that `list_active` includes an announcement iff
(start date absent or at most today) and expiration date at least today,
in particular for announcements created with `start_date` omitted.  The
code contradicts this: `create` stores `start_date: null` when the
parameter is omitted, and the active query matches a null field neither
with its `$exists: false` branch (the field exists) nor with its string
`$lte` branch (a string-operand range match skips null), so such an
announcement is never listed as active.  Evaluated at the failing input:
an announcement created with start omitted and expiration 9999-12-31,
queried on 2024-06-01, is active per the spec but absent from the
result. -/
theorem c1_omitted_start_invisible :
    create_announcement dbJ "Exam Friday" "9999-12-31" "jdoe" none oidA
        "2024-05-01T00:00:00"
      = (Except.ok (respOf docNull), ⟨[docNull], ["jdoe"]⟩) ∧
    fromisoformatDate "2024-06-01" = some ⟨2024, 6, 1⟩ ∧
    spec_active docNull ⟨2024, 6, 1⟩ = true ∧
    get_active_announcements ⟨[docNull], ["jdoe"]⟩ "2024-06-01" = [] :=
  ⟨rfl, rfl, rfl, rfl⟩

/-- C3 counterexample: the claim quantifies over every call to create
with start date after expiration date; for an unknown caller such a call
fails with 401 Unauthenticated, not with InvalidArgument (400). -/
theorem c3_unknown_caller_counterexample :
    (create_announcement dbJ "m" "2024-06-01" "ghost" (some "2024-06-02") oidA "t").1
      = Except.error ⟨401, "Invalid user"⟩ ∧
    ¬ errStatus
        (create_announcement dbJ "m" "2024-06-01" "ghost" (some "2024-06-02") oidA "t").1
      = some 400 :=
  ⟨rfl, by decide⟩

/-- C3 (amended): for every call to create by a known caller with both
dates present and the start date after the expiration date, the call
fails with InvalidArgument (400) and the store is unchanged. -/
theorem c3_start_after_expiration_rejected (db : DB) (msg e u s : String)
    (oid : OID) (now : String) (de ds : Date)
    (hu : ¬ u = "") (hk : u ∈ db.teachers)
    (he : fromisoformatDate e = some de) (hs : fromisoformatDate s = some ds)
    (hne : ¬ s = "") (hlt : Date.blt de ds = true) :
    create_announcement db msg e u (some s) oid now =
      (Except.error ⟨400, "Start date must be before expiration date"⟩, db) := by
  have hv : validate_dates e (some s)
      = Except.error ⟨400, "Start date must be before expiration date"⟩ := by
    unfold validate_dates
    simp [he, truthyOpt, hne, hs, hlt]
  simp [create_announcement, hu, hk, hv]

theorem c3_start_after_expiration_rejected_witness :
    create_announcement dbJ "m" "2024-06-01" "jdoe" (some "2024-06-02") oidA "t" =
      (Except.error ⟨400, "Start date must be before expiration date"⟩, dbJ) :=
  c3_start_after_expiration_rejected dbJ "m" "2024-06-01" "jdoe" "2024-06-02" oidA "t"
    ⟨2024, 6, 1⟩ ⟨2024, 6, 2⟩ (by decide) (by decide) rfl rfl (by decide) rfl

/-- C4: update by a known caller with valid dates and a well-formed
identifier matching no stored record fails with 404 NotFound and leaves
the store unchanged. -/
theorem c4_update_unknown_id_notfound (db : DB) (id msg e u : String)
    (st : Option String) (now : String) (oid : OID)
    (hu : ¬ u = "") (hk : u ∈ db.teachers)
    (hv : validate_dates e st = Except.ok ())
    (ho : objectIdOfString id = some oid)
    (hno : noMatch oid db.announcements = true) :
    update_announcement db id msg e u st now =
      (Except.error ⟨404, "Announcement not found"⟩, db) := by
  simp [update_announcement, hu, hk, hv, ho,
    updateFirst_eq_none oid (fun d => setFields d msg st e u now) db.announcements hno]

theorem c4_update_unknown_id_notfound_witness :
    update_announcement dbJ oidA "m" "2024-06-01" "jdoe" none "t" =
      (Except.error ⟨404, "Announcement not found"⟩, dbJ) :=
  c4_update_unknown_id_notfound dbJ oidA "m" "2024-06-01" "jdoe" none "t" oidA
    (by decide) (by decide) rfl rfl rfl

/-- C5: delete is idempotent in effect: when a delete succeeds (and store
ids are unique, as MongoDB enforces for `_id`), a second delete of the
same identifier by a known caller returns 404 NotFound and leaves the
store state unchanged. -/
theorem c5_delete_idempotent (db : DB) (id u m : String) (db2 : DB)
    (hnd : (db.announcements.map AnnDoc.oid).Nodup)
    (h : delete_announcement db id u = (Except.ok m, db2)) :
    delete_announcement db2 id u =
      (Except.error ⟨404, "Announcement not found"⟩, db2) := by
  obtain ⟨oid, anns2, hu, hk, ho, hrm, hdb2⟩ := delete_ok_inv db id u m db2 h
  subst hdb2
  have hnm : noMatch oid anns2 = true :=
    removeFirst_noMatch_of_nodup oid db.announcements anns2 hrm hnd
  simp [delete_announcement, hu, hk, ho, removeFirst_eq_none oid anns2 hnm]

theorem c5_delete_idempotent_witness :
    delete_announcement ⟨[], ["jdoe"]⟩ oidA "jdoe" =
      (Except.error ⟨404, "Announcement not found"⟩, ⟨[], ["jdoe"]⟩) :=
  c5_delete_idempotent dbA oidA "jdoe" "Announcement deleted successfully"
    ⟨[], ["jdoe"]⟩ (by decide) rfl

/-- C6: every list returned by `list_all` and by `list_active` is ordered
by the records' creation time, descending (newest-created first). -/
theorem c6_lists_sorted (db : DB) (today : String) (uo : Option String)
    (l : List RespDoc) (h : get_all_announcements db uo = Except.ok l) :
    List.Pairwise respGE (get_active_announcements db today) ∧
    List.Pairwise respGE l := by
  constructor
  · exact pairwise_respGE_map _ (sortDesc_sorted _)
  · have hl : l = (sortDesc db.announcements).map respOf := by
      unfold get_all_announcements at h
      cases h1 : truthyOpt uo with
      | false => simp [h1] at h
      | true =>
        by_cases h2 : (uo.getD "") ∈ db.teachers
        · simp [h1, h2] at h
          exact h.symm
        · simp [h1, h2] at h
    rw [hl]
    exact pairwise_respGE_map _ (sortDesc_sorted _)

theorem c6_lists_sorted_witness :
    List.Pairwise respGE (get_active_announcements dbA "2024-05-15") ∧
    List.Pairwise respGE [respOf docA] :=
  c6_lists_sorted dbA "2024-05-15" (some "jdoe") [respOf docA] rfl

/-- C7: for each operation taking a caller, a missing/empty caller or one
matching no known user yields 401 Unauthenticated regardless of the
payload (dates and identifier are arbitrary here, valid or not), and the
store is unchanged. -/
theorem c7_unauthenticated_first (db : DB) (uo : Option String)
    (u id msg e : String) (st : Option String) (oid : OID) (now : String)
    (hlo : truthyOpt uo = false ∨ ¬ (uo.getD "") ∈ db.teachers)
    (hu : u = "" ∨ ¬ u ∈ db.teachers) :
    errStatus (get_all_announcements db uo) = some 401 ∧
    (errStatus (create_announcement db msg e u st oid now).1 = some 401 ∧
      (create_announcement db msg e u st oid now).2 = db) ∧
    (errStatus (update_announcement db id msg e u st now).1 = some 401 ∧
      (update_announcement db id msg e u st now).2 = db) ∧
    (errStatus (delete_announcement db id u).1 = some 401 ∧
      (delete_announcement db id u).2 = db) := by
  refine ⟨?_, ?_, ?_, ?_⟩
  · rcases hlo with h1 | h1
    · simp [get_all_announcements, h1, errStatus]
    · cases h2 : truthyOpt uo with
      | false => simp [get_all_announcements, h2, errStatus]
      | true => simp [get_all_announcements, h2, h1, errStatus]
  · rcases hu with h1 | h1
    · simp [create_announcement, h1, errStatus]
    · by_cases h2 : u = ""
      · simp [create_announcement, h2, errStatus]
      · simp [create_announcement, h1, h2, errStatus]
  · rcases hu with h1 | h1
    · simp [update_announcement, h1, errStatus]
    · by_cases h2 : u = ""
      · simp [update_announcement, h2, errStatus]
      · simp [update_announcement, h1, h2, errStatus]
  · rcases hu with h1 | h1
    · simp [delete_announcement, h1, errStatus]
    · by_cases h2 : u = ""
      · simp [delete_announcement, h2, errStatus]
      · simp [delete_announcement, h1, h2, errStatus]

theorem c7_unauthenticated_first_witness :
    errStatus (get_all_announcements dbA none) = some 401 ∧
    (errStatus (create_announcement dbA "m" "2024-06-01" "ghost" none oidB "t").1
        = some 401 ∧
      (create_announcement dbA "m" "2024-06-01" "ghost" none oidB "t").2 = dbA) ∧
    (errStatus (update_announcement dbA oidA "m" "2024-06-01" "ghost" none "t").1
        = some 401 ∧
      (update_announcement dbA oidA "m" "2024-06-01" "ghost" none "t").2 = dbA) ∧
    (errStatus (delete_announcement dbA oidA "ghost").1 = some 401 ∧
      (delete_announcement dbA oidA "ghost").2 = dbA) :=
  c7_unauthenticated_first dbA none "ghost" oidA "m" "2024-06-01" none oidB "t"
    (Or.inl rfl) (Or.inr (by decide))

/-- C8: every record written to the store by a successful create or a
successful update satisfies the invariant: a present (non-empty) start
date string parses and its calendar date is at most the calendar date of
the expiration string. -/
theorem c8_written_records_invariant (db : DB) (msg e u : String)
    (st : Option String) (oid : OID) (now : String) (r : RespDoc) (db2 : DB)
    (id msg2 e2 u2 : String) (st2 : Option String) (now2 : String)
    (r2 : RespDoc) (db3 : DB)
    (hc : create_announcement db msg e u st oid now = (Except.ok r, db2))
    (hup : update_announcement db id msg2 e2 u2 st2 now2 = (Except.ok r2, db3)) :
    allOldOrInv db.announcements db2.announcements = true ∧
    allOldOrInv db.announcements db3.announcements = true := by
  constructor
  · obtain ⟨_, _, hv, _, hdb2⟩ := create_ok_inv db msg e u st oid now r db2 hc
    subst hdb2
    exact allOldOrInv_append db.announcements _
      (startInvB_of_validate e st hv _ rfl rfl)
  · obtain ⟨oid2, anns2, d2, _, _, hv, _, hupf, _, hdb3⟩ :=
      update_ok_inv db id msg2 e2 u2 st2 now2 r2 db3 hup
    subst hdb3
    exact allOldOrInv_of_updateFirst _ oid2 db.announcements anns2 d2 hupf
      (fun d => startInvB_of_validate e2 st2 hv _ rfl rfl)

theorem c8_written_records_invariant_witness :
    allOldOrInv dbA.announcements
      [docA, newAnn "m2" "2024-07-01" "jdoe" (some "2024-06-15") oidB "t2"] = true ∧
    allOldOrInv dbA.announcements
      [setFields docA "m3" none "2024-08-01" "jdoe" "t3"] = true :=
  c8_written_records_invariant dbA "m2" "2024-07-01" "jdoe" (some "2024-06-15")
    oidB "t2"
    (respOf (newAnn "m2" "2024-07-01" "jdoe" (some "2024-06-15") oidB "t2"))
    ⟨[docA, newAnn "m2" "2024-07-01" "jdoe" (some "2024-06-15") oidB "t2"], ["jdoe"]⟩
    oidA "m3" "2024-08-01" "jdoe" none "t3"
    (respOf (setFields docA "m3" none "2024-08-01" "jdoe" "t3"))
    ⟨[setFields docA "m3" none "2024-08-01" "jdoe" "t3"], ["jdoe"]⟩
    rfl rfl

/-- C9: in every successful response that returns announcement records
(list_active, list_all, create, update), the identifier field of each
record is a string. -/
theorem c9_response_id_string (db : DB) (today : String) (uo : Option String)
    (l : List RespDoc) (msg e u : String) (st : Option String) (oid : OID)
    (now : String) (r : RespDoc) (db2 : DB)
    (id msg2 e2 u2 : String) (st2 : Option String) (now2 : String)
    (r2 : RespDoc) (db3 : DB) :
    allIdStr (get_active_announcements db today) = true ∧
    (get_all_announcements db uo = Except.ok l → allIdStr l = true) ∧
    (create_announcement db msg e u st oid now = (Except.ok r, db2) →
      r.idv.isStr = true) ∧
    (update_announcement db id msg2 e2 u2 st2 now2 = (Except.ok r2, db3) →
      r2.idv.isStr = true) := by
  refine ⟨allIdStr_map _, ?_, ?_, ?_⟩
  · intro h
    have hl : l = (sortDesc db.announcements).map respOf := by
      unfold get_all_announcements at h
      cases h1 : truthyOpt uo with
      | false => simp [h1] at h
      | true =>
        by_cases h2 : (uo.getD "") ∈ db.teachers
        · simp [h1, h2] at h
          exact h.symm
        · simp [h1, h2] at h
    rw [hl]
    exact allIdStr_map _
  · intro h
    obtain ⟨_, _, _, hr, _⟩ := create_ok_inv db msg e u st oid now r db2 h
    rw [hr]; rfl
  · intro h
    obtain ⟨oid2, anns2, d2, _, _, _, _, _, hr, _⟩ :=
      update_ok_inv db id msg2 e2 u2 st2 now2 r2 db3 h
    rw [hr]; rfl

theorem c9_response_id_string_witness :
    allIdStr (get_active_announcements dbA "2024-05-15") = true ∧
    allIdStr [respOf docA] = true ∧
    (respOf (newAnn "m2" "2024-07-01" "jdoe" (some "2024-06-15") oidB "t2")).idv.isStr
      = true ∧
    (respOf (setFields docA "m3" none "2024-08-01" "jdoe" "t3")).idv.isStr = true := by
  have h := c9_response_id_string dbA "2024-05-15" (some "jdoe") [respOf docA]
    "m2" "2024-07-01" "jdoe" (some "2024-06-15") oidB "t2"
    (respOf (newAnn "m2" "2024-07-01" "jdoe" (some "2024-06-15") oidB "t2"))
    ⟨[docA, newAnn "m2" "2024-07-01" "jdoe" (some "2024-06-15") oidB "t2"], ["jdoe"]⟩
    oidA "m3" "2024-08-01" "jdoe" none "t3"
    (respOf (setFields docA "m3" none "2024-08-01" "jdoe" "t3"))
    ⟨[setFields docA "m3" none "2024-08-01" "jdoe" "t3"], ["jdoe"]⟩
  exact ⟨h.1, h.2.1 rfl, h.2.2.1 rfl, h.2.2.2 rfl⟩

/-- C10: a successful update rewrites exactly the first record matching
the given identifier with the `$set` document — which preserves the
record's `created_by` and `created_at` — and leaves every other record
and the teachers collection unchanged. -/
theorem c10_update_frame (db : DB) (id msg e u : String) (st : Option String)
    (now : String) (r : RespDoc) (db2 : DB) (oid : OID)
    (h : update_announcement db id msg e u st now = (Except.ok r, db2))
    (ho : objectIdOfString id = some oid) :
    frameAfterUpdate msg st e u now oid db.announcements db2.announcements = true ∧
    db2.teachers = db.teachers := by
  obtain ⟨oid2, anns2, d2, hu, hk, hv, ho2, hup, hr, hdb2⟩ :=
    update_ok_inv db id msg e u st now r db2 h
  rw [ho] at ho2
  have hoe := Option.some.inj ho2
  subst hoe
  subst hdb2
  exact ⟨frame_of_updateFirst msg st e u now oid db.announcements anns2 d2 hup, rfl⟩

theorem c10_update_frame_witness :
    frameAfterUpdate "m3" none "2024-08-01" "jdoe" "t3" oidA dbA.announcements
      [setFields docA "m3" none "2024-08-01" "jdoe" "t3"] = true ∧
    (["jdoe"] : List String) = dbA.teachers :=
  c10_update_frame dbA oidA "m3" "2024-08-01" "jdoe" none "t3"
    (respOf (setFields docA "m3" none "2024-08-01" "jdoe" "t3"))
    ⟨[setFields docA "m3" none "2024-08-01" "jdoe" "t3"], ["jdoe"]⟩ oidA rfl rfl

end Announcements
